import Mathlib

/-!
Shallow embedding of `ldcoolp_figshare/main.py` (class `FigshareInstituteAdmin`).

The HTTP transport (`redata_request`) is modelled by an environment of
fetch results: a successful call yields the decoded JSON payload, a failed
call yields an `HTTPErr` (the `requests.exceptions.HTTPError` raised by the
transport).  pandas DataFrames are modelled as Lists of rows; column
assignment is modelled by extra fields on the result record.  Logging
(`self.log.info` / `self.log.warning`) is modelled by an explicit list of
log entries returned next to the value.
-/

namespace Figshare

/-- An HTTP-level error raised by the request transport. -/
structure HTTPErr where
  code : Nat
deriving DecidableEq

/-- Decidable equality for fetch outcomes, used to evaluate concrete
environments in witnesses. -/
instance exceptDecEq {ε α : Type} [DecidableEq ε] [DecidableEq α] :
    DecidableEq (Except ε α)
  | .error a, .error b =>
    if h : a = b then .isTrue (by rw [h]) else .isFalse fun hc => h (Except.error.inj hc)
  | .error _, .ok _ => .isFalse fun hc => Except.noConfusion hc
  | .ok _, .error _ => .isFalse fun hc => Except.noConfusion hc
  | .ok a, .ok b =>
    if h : a = b then .isTrue (by rw [h]) else .isFalse fun hc => h (Except.ok.inj hc)

/-- Log levels used by the client (`log.info` and `log.warning`). -/
inductive Level
  | info
  | warning
deriving DecidableEq

/-- One emitted log line. -/
structure LogEntry where
  level : Level
  msg : String
deriving DecidableEq

/-- A raw account row as fetched from the accounts endpoint, before the
`institution_id` column is dropped.  Besides `id` and `email` (the columns
the code reads), remaining columns are kept opaque. -/
structure RawAccount where
  id : Nat
  email : String
  institution_id : Nat
  other : List (String × String)
deriving DecidableEq

/-- An account row after `drop(columns='institution_id')`. -/
structure AccountRow where
  id : Nat
  email : String
  other : List (String × String)
deriving DecidableEq

/-- Dropping the `institution_id` column from a fetched account row. -/
def dropInstitution (a : RawAccount) : AccountRow :=
  { id := a.id, email := a.email, other := a.other }

/-- A group record: identifier and name (the two columns the code reads). -/
structure Group where
  id : Nat
  name : String
deriving DecidableEq

/-- One role record `{id, name}` inside a role structure. -/
structure RoleRec where
  id : Int
  name : String
deriving DecidableEq

/-- The role structure returned for one account: a dict keyed by the
stringified group id, each value an ordered list of role records.
Python dicts preserve insertion order, so a list of pairs is faithful. -/
abbrev Roles := List (String × List RoleRec)

/-- An opaque JSON-derived row (articles / projects / collections);
only row counts are consumed by the aggregation. -/
structure JsonRow where
  fields : List (String × String)
deriving DecidableEq

/-- Constructor-time configuration of `FigshareInstituteAdmin`. -/
structure Config where
  token : String
  stage : Bool
  admin_filter : Option (List String)

/-- `ignore_admin` is set in `__init__` iff an admin filter list was given. -/
def Config.ignore_admin (cfg : Config) : Bool :=
  cfg.admin_filter.isSome

/-- The fetch environment: outcome of each `redata_request` call the class
can make, keyed (where relevant) by the account id passed to the call. -/
structure Env where
  accountsFetch : Except HTTPErr (List RawAccount)
  groupsFetch : Except HTTPErr (List Group)
  rolesFetch : Nat → Except HTTPErr Roles
  articlesFetch : Nat → Except HTTPErr (List JsonRow)
  projectsFetch : Nat → Except HTTPErr (List JsonRow)
  collectionsFetch : Nat → Except HTTPErr (List JsonRow)

/-! ## Endpoint resolution and requests (`endpoint`, the accessors' calls) -/

/-- Base URL selection from `__init__`: stage vs. production. -/
def baseurl (stage : Bool) : String :=
  if stage then "https://api.figsh.com/v2/account/"
  else "https://api.figshare.com/v2/account/"

/-- `self.baseurl_institute = self.baseurl + "institution/"`. -/
def baseurl_institute (stage : Bool) : String :=
  baseurl stage ++ "institution/"

/-- `endpoint(link, institute=True)`: concatenate the endpoint to the
base URL, institution-scoped by default. -/
def endpoint (stage : Bool) (link : String) (institute : Bool := true) : String :=
  if institute then baseurl_institute stage ++ link
  else baseurl stage ++ link

/-- HTTP method of a request issued through `redata_request`. -/
inductive Method
  | GET
  | POST
deriving DecidableEq

/-- One HTTP request as issued by an accessor: method, URL and the
query parameters passed in `params` (all parameter values in the
source are integers). -/
structure Request where
  method : Method
  url : String
  params : List (String × Nat)
deriving DecidableEq

/-- Requests issued by `get_articles`: one GET with page/page_size. -/
def get_articles_requests (stage : Bool) : List Request :=
  [⟨Method.GET, endpoint stage "articles",
    [("page", 1), ("page_size", 1000)]⟩]

/-- Requests issued by `get_user_articles`: one GET with
page/page_size/impersonate. -/
def get_user_articles_requests (stage : Bool) (account_id : Nat) : List Request :=
  [⟨Method.GET, endpoint stage "articles" false,
    [("page", 1), ("page_size", 1000), ("impersonate", account_id)]⟩]

/-- Requests issued by `get_user_projects`. -/
def get_user_projects_requests (stage : Bool) (account_id : Nat) : List Request :=
  [⟨Method.GET, endpoint stage "projects" false,
    [("page", 1), ("page_size", 1000), ("impersonate", account_id)]⟩]

/-- Requests issued by `get_user_collections`. -/
def get_user_collections_requests (stage : Bool) (account_id : Nat) : List Request :=
  [⟨Method.GET, endpoint stage "collections" false,
    [("page", 1), ("page_size", 1000), ("impersonate", account_id)]⟩]

/-- Requests issued by `get_groups`: one GET, no params argument at all. -/
def get_groups_requests (stage : Bool) : List Request :=
  [⟨Method.GET, endpoint stage "groups", []⟩]

/-- Requests issued by `get_account_list`: one GET with page/page_size. -/
def get_account_list_requests (stage : Bool) : List Request :=
  [⟨Method.GET, endpoint stage "accounts",
    [("page", 1), ("page_size", 1000)]⟩]

/-- Requests issued by `get_curation_list`: one GET with offset/limit,
plus `article_id` when supplied. -/
def get_curation_list_requests (stage : Bool) (article_id : Option Nat) : List Request :=
  [⟨Method.GET, endpoint stage "reviews",
    [("offset", 0), ("limit", 1000)] ++
      (match article_id with
       | some a => [("article_id", a)]
       | none => [])⟩]

/-! ## DOI workflow (`doi_check`, `reserve_doi`) -/

/-- Python's `str.lower`, modelled character-wise (faithful for the
ASCII inputs the confirmation prompt compares against). -/
def strLower (s : String) : String :=
  ⟨s.data.map Char.toLower⟩

/-- Python truthiness of the fetched `article_details['doi']` field:
`None` and the empty string are falsy, any other string is truthy. -/
def pyTruthy : Option String → Bool
  | none => false
  | some s => s != ""

/-- `doi_check`: `check = False; if article_details['doi']: check = True;
return check, article_details['doi']`. -/
def doi_check (doi_field : Option String) : Bool × Option String :=
  (pyTruthy doi_field, doi_field)

/-- Inputs to one `reserve_doi` run: the article's fetched DOI field, the
`doi` field of the POST response (used only if the POST is issued), and
the operator's console input. -/
structure ReserveEnv where
  doiField : Option String
  mintedDoi : String
  operatorInput : String

/-- Observable outcome of `reserve_doi`: the returned DOI string (or
`None`), whether the state-mutating POST was issued, and the log. -/
structure ReserveResult where
  returnedDoi : Option String
  posted : Bool
  logs : List LogEntry
deriving DecidableEq

/-- `reserve_doi`: skip with the existing DOI when already reserved;
otherwise prompt, POST only on input lowercasing to `"yes"`, else warn
and return the prior DOI. -/
def reserve_doi (env : ReserveEnv) : ReserveResult :=
  let c := doi_check env.doiField
  if c.1 then
    { returnedDoi := c.2, posted := false,
      logs := [⟨Level.info, "DOI already reserved! Skipping... "⟩] }
  else
    let promptLogs : List LogEntry :=
      [⟨Level.info, "PROMPT: DOI reservation has not occurred! Do you wish to reserve?"⟩,
       ⟨Level.info, "RESPONSE: " ++ env.operatorInput⟩]
    if strLower env.operatorInput = "yes" then
      { returnedDoi := some env.mintedDoi, posted := true,
        logs := promptLogs ++
          [⟨Level.info, "Reserving DOI ... "⟩,
           ⟨Level.info, "DOI minted : " ++ env.mintedDoi⟩] }
    else
      { returnedDoi := c.2, posted := false,
        logs := promptLogs ++ [⟨Level.warning, "Skipping... "⟩] }

/-! ## String helpers

`hasInfix` models `pandas.Series.str.contains` applied with a literal
(regex-metacharacter-free) pattern: a match anywhere in the string.
`strReplace` models Python's `str.replace`: left-to-right replacement of
every non-overlapping occurrence.  Both recurse structurally so that the
kernel can evaluate them on concrete inputs. -/

/-- Does `pat` occur as a contiguous run inside `s`?  (Empty `pat`
matches everywhere, as in Python.) -/
def hasInfix : List Char → List Char → Bool
  | s@(_ :: cs), pat => pat.isPrefixOf s || hasInfix cs pat
  | [], pat => pat.isEmpty

/-- `str.contains` of pandas with a literal pattern / Python's `in`. -/
def strContains (s sub : String) : Bool :=
  hasInfix s.data sub.data

/-- Fuel-indexed core of `str.replace`; fuel `s.length` suffices for a
non-empty pattern. -/
def strReplaceAux (pat rep : List Char) : Nat → List Char → List Char
  | _, [] => []
  | 0, s => s
  | fuel + 1, c :: cs =>
    if pat.isPrefixOf (c :: cs) then
      rep ++ strReplaceAux pat rep fuel ((c :: cs).drop pat.length)
    else
      c :: strReplaceAux pat rep fuel cs

/-- Python's `sub.replace(pat, rep)`: replace every non-overlapping
occurrence of `pat` in `s` by `rep`, scanning left to right. -/
def strReplace (s pat rep : String) : String :=
  ⟨strReplaceAux pat.data rep.data s.data.length s.data⟩

/-! ## `get_account_list` -/

/-- Row positions of `accounts_df` whose email matches the filter string
`ia`: `list(accounts_df[accounts_df['email'].str.contains(ia)].index)`. -/
def matchedIdx (df : List AccountRow) (ia : String) : List Nat :=
  ((df.enum.filter fun p => strContains p.2.email ia).map fun p => p.1)

/-- The accumulated `drop_index` list: indices collected per filter
string, concatenated in filter order (duplicates possible). -/
def dropIndex (df : List AccountRow) (admin_filter : List String) : List Nat :=
  admin_filter.foldl (fun acc ia => acc ++ matchedIdx df ia) []

/-- `get_account_list`: fetch accounts, drop the `institution_id` column
and, when `ignore_admin` is set, drop every row whose index was collected
into `drop_index`, then `reset_index(drop=True)` (implicit in the list
model).  Returns the rows next to the emitted log lines. -/
def get_account_list (cfg : Config) (env : Env) :
    Except HTTPErr (List AccountRow × List LogEntry) :=
  match env.accountsFetch with
  | .error e => .error e
  | .ok accounts =>
    let accounts_df := accounts.map dropInstitution
    match cfg.admin_filter with
    | none => .ok (accounts_df, [])
    | some admin_filter =>
      let drop_idx := dropIndex accounts_df admin_filter
      .ok (((accounts_df.enum.filter fun p => !(drop_idx.contains p.1)).map fun p => p.2),
        [⟨Level.info, "Excluding administrative and test accounts"⟩])

/-! ## `get_account_details` -/

/-- One `try/except HTTPError` block of the per-account loop: on success
the count is the fetched frame's row count, on `HTTPError` the count
stays `0` and a warning naming the resource and account is logged. -/
def countOrWarn (fetch : Except HTTPErr (List JsonRow)) (resource : String)
    (account_id : Nat) : Nat × List LogEntry :=
  match fetch with
  | .ok df => (df.length, [])
  | .error _ =>
    (0, [⟨Level.warning, "Unable to retrieve " ++ resource ++ " for : " ++ Nat.repr account_id⟩])

/-- Processing of one role record `t` under dict key `key` inside the
role scan: role id 11 overwrites the group association with the key;
when `flag` is set, ids 2 and 49 set the admin and reviewer markers. -/
def roleStep (flag : Bool) (key : String) (acc2 : String × String × String)
    (t : RoleRec) : String × String × String :=
  (if t.id = 11 then key else acc2.1,
   if flag then (if t.id = 2 then "X" else acc2.2.1) else acc2.2.1,
   if flag then (if t.id = 49 then "X" else acc2.2.2) else acc2.2.2)

/-- The role-structure scan of the per-account loop, returning
`(group_assoc, admin_flag, reviewer_flag)` for one account, starting from
`("N/A", "", "")` and applying `roleStep` to every record of every key in
dict iteration order (so the last id-11 match wins). -/
def scanRoles (flag : Bool) (roles : Roles) : String × String × String :=
  roles.foldl (fun acc kv => kv.2.foldl (roleStep flag kv.1) acc) ("N/A", "", "")

/-- Per-account accumulator values produced by one iteration of the
aggregation loop (counts, role-derived strings, warnings emitted). -/
structure AcctAccum where
  num_articles : Nat
  num_projects : Nat
  num_collections : Nat
  group_assoc : String
  admin_flag : String
  reviewer_flag : String
  logs : List LogEntry
deriving DecidableEq

/-- Loop body of `get_account_details` after the roles fetch succeeded. -/
def accumOf (env : Env) (flag : Bool) (account_id : Nat) (roles : Roles) : AcctAccum :=
  let a := countOrWarn (env.articlesFetch account_id) "articles" account_id
  let p := countOrWarn (env.projectsFetch account_id) "projects" account_id
  let c := countOrWarn (env.collectionsFetch account_id) "collections" account_id
  let s := scanRoles flag roles
  { num_articles := a.1, num_projects := p.1, num_collections := c.1,
    group_assoc := s.1, admin_flag := s.2.1, reviewer_flag := s.2.2,
    logs := a.2 ++ p.2 ++ c.2 }

/-- One iteration of the per-account loop.  The roles fetch
(`get_account_group_roles`) is NOT inside a `try`, so its `HTTPError`
propagates out of the loop. -/
def processAccount (env : Env) (flag : Bool) (account_id : Nat) :
    Except HTTPErr AcctAccum :=
  match env.rolesFetch account_id with
  | .error e => .error e
  | .ok roles => .ok (accumOf env flag account_id roles)

/-- Sequential traversal in the `Except` monad: runs the loop body on
each element in order and aborts with the first error, like the Python
`for` loop an uncaught exception escapes from. -/
def exMapM {α β : Type} (f : α → Except HTTPErr β) : List α → Except HTTPErr (List β)
  | [] => .ok []
  | a :: as =>
    match f a with
    | .error e => .error e
    | .ok b =>
      match exMapM f as with
      | .error e => .error e
      | .ok bs => .ok (b :: bs)

/-- Step 5 of the aggregation: for each group in group-list order,
globally replace the stringified group id by the group name inside every
account's provisional group-association string, logging one info line
per group. -/
def applyGroupReplacements (groups : List Group) (group_assoc : List String) :
    List String × List LogEntry :=
  groups.foldl
    (fun acc g =>
      ((acc.1.map fun sub => strReplace sub (Nat.repr g.id) g.name),
       acc.2 ++ [⟨Level.info, Nat.repr g.id ++ " - " ++ g.name⟩]))
    (group_assoc, [])

/-- The aggregated account table: the (unmodified) filtered account rows
plus the appended columns.  `admin`/`reviewer` are `none` when the
columns were not attached (`flag=False`). -/
structure AccountDetails where
  rows : List AccountRow
  articles : List Nat
  projects : List Nat
  collections : List Nat
  admin : Option (List String)
  reviewer : Option (List String)
  group : List String
deriving DecidableEq

/-- `get_account_details`: fetch the filtered account list and the group
list (failures propagate), run the per-account loop in row order, then
attach the count, flag and group columns. -/
def get_account_details (cfg : Config) (env : Env) (flag : Bool) :
    Except HTTPErr (AccountDetails × List LogEntry) :=
  match get_account_list cfg env with
  | .error e => .error e
  | .ok (accounts_df, logs0) =>
    match env.groupsFetch with
    | .error e => .error e
    | .ok groups_df =>
      match exMapM (fun row => processAccount env flag row.id) accounts_df with
      | .error e => .error e
      | .ok accums =>
        let rep := applyGroupReplacements groups_df (accums.map fun a => a.group_assoc)
        .ok ({ rows := accounts_df,
               articles := accums.map fun a => a.num_articles,
               projects := accums.map fun a => a.num_projects,
               collections := accums.map fun a => a.num_collections,
               admin := if flag then some (accums.map fun a => a.admin_flag) else none,
               reviewer := if flag then some (accums.map fun a => a.reviewer_flag) else none,
               group := rep.1 },
             logs0 ++ (accums.map fun a => a.logs).flatten ++ rep.2)

/-- The row count an isolated per-account fetch contributes: the frame's
row count on success, `0` on `HTTPError`. -/
def countOf : Except HTTPErr (List JsonRow) → Nat
  | .ok df => df.length
  | .error _ => 0

/-- The provisional group association one role structure yields: the key
of the last role record with id 11, in dict iteration order, or the
sentinel `"N/A"`. -/
def lastId11Key (roles : Roles) : String :=
  roles.foldl
    (fun g kv => kv.2.foldl (fun g2 t => if t.id = 11 then kv.1 else g2) g)
    "N/A"

/-- Does any role record with the given id occur in the role structure? -/
def hasRoleId (rid : Int) (roles : Roles) : Bool :=
  roles.any fun kv => kv.2.any fun t => t.id == rid

/-! ## Concrete fixtures used by witnesses and counterexamples -/

/-- A configuration with the admin filter of testable property 8. -/
def cfgW : Config := ⟨"token123", false, some ["test"]⟩

/-- A configuration without an admin filter. -/
def cfgNone : Config := ⟨"token123", false, none⟩

/-- Three fetched accounts, with the emails of testable property 8. -/
def rawsW : List RawAccount :=
  [⟨1, "a@x.org", 77, []⟩, ⟨2, "test@x.org", 77, []⟩, ⟨3, "b@x.org", 77, []⟩]

/-- A fetch environment where account 3's articles fetch and account 1's
collections fetch raise `HTTPError`, and account 1 is a data curator and
administrator of group 100. -/
def envW : Env :=
  { accountsFetch := .ok rawsW,
    groupsFetch := .ok [⟨100, "Science"⟩],
    rolesFetch := fun i =>
      .ok (if i = 1 then [("100", [⟨11, "curator"⟩, ⟨2, "admin"⟩])] else []),
    articlesFetch := fun i => if i = 3 then .error ⟨404⟩ else .ok [⟨[]⟩, ⟨[]⟩],
    projectsFetch := fun _ => .ok [⟨[]⟩],
    collectionsFetch := fun i => if i = 1 then .error ⟨500⟩ else .ok [] }

/-- The account rows surviving `cfgW`'s admin filter on `rawsW`. -/
def rowsW : List AccountRow := [⟨1, "a@x.org", []⟩, ⟨3, "b@x.org", []⟩]

/-- The role structures `envW` serves for the surviving rows. -/
def RW : AccountRow → Roles := fun r =>
  if r.id = 1 then [("100", [⟨11, "curator"⟩, ⟨2, "admin"⟩])] else []

/-- The role structure of account 1 in `envW`. -/
def rolesW1 : Roles := [("100", [⟨11, "curator"⟩, ⟨2, "admin"⟩])]

/-- The log of `get_account_list cfgW envW`. -/
def logsW : List LogEntry := [⟨Level.info, "Excluding administrative and test accounts"⟩]

/-- The full log of `get_account_details cfgW envW true`. -/
def logsW2 : List LogEntry :=
  [⟨Level.info, "Excluding administrative and test accounts"⟩,
   ⟨Level.warning, "Unable to retrieve collections for : 1"⟩,
   ⟨Level.warning, "Unable to retrieve articles for : 3"⟩,
   ⟨Level.info, "100 - Science"⟩]

/-- The table `get_account_details cfgW envW true` returns. -/
def tblW : AccountDetails :=
  { rows := rowsW, articles := [2, 0], projects := [1, 1], collections := [0, 0],
    admin := some ["X", ""], reviewer := some ["", ""], group := ["Science", "N/A"] }

/-- An environment where the roles fetch of account 1 raises `HTTPError`
while everything else succeeds. -/
def envAbort : Env :=
  { accountsFetch := .ok [⟨1, "a@x.org", 77, []⟩, ⟨2, "b@x.org", 77, []⟩],
    groupsFetch := .ok [],
    rolesFetch := fun i => if i = 1 then .error ⟨500⟩ else .ok [],
    articlesFetch := fun _ => .ok [],
    projectsFetch := fun _ => .ok [],
    collectionsFetch := fun _ => .ok [] }

/-- The rows `get_account_list cfgNone envAbort` yields. -/
def rowsAbort : List AccountRow := [⟨1, "a@x.org", []⟩, ⟨2, "b@x.org", []⟩]

/-- An environment exhibiting the substring collision of the group-name
substitution: the data-curator key "12" names group 12 ("B"), but group 1
("A") is substituted first, corrupting the field to "A2". -/
def envCollide : Env :=
  { accountsFetch := .ok [⟨5, "c@x.org", 77, []⟩],
    groupsFetch := .ok [⟨1, "A"⟩, ⟨12, "B"⟩],
    rolesFetch := fun _ => .ok [("12", [⟨11, "curator"⟩])],
    articlesFetch := fun _ => .ok [],
    projectsFetch := fun _ => .ok [],
    collectionsFetch := fun _ => .ok [] }

/-! ## Helper lemmas about `exMapM` -/

theorem exMapM_ok_cons_inv {α β : Type} {f : α → Except HTTPErr β} {a : α}
    {as : List α} {bs : List β} (h : exMapM f (a :: as) = .ok bs) :
    ∃ b bs2, f a = .ok b ∧ exMapM f as = .ok bs2 ∧ bs = b :: bs2 := by
  unfold exMapM at h
  cases hfa : f a <;> rw [hfa] at h
  · exact absurd h (by simp)
  case ok b =>
    cases hrec : exMapM f as <;> rw [hrec] at h
    · exact absurd h (by simp)
    case ok bs2 =>
      refine ⟨b, bs2, rfl, rfl, ?_⟩
      injection h with h2
      exact h2.symm

theorem exMapM_ok_length {α β : Type} {f : α → Except HTTPErr β} :
    ∀ {l : List α} {bs : List β}, exMapM f l = .ok bs → bs.length = l.length := by
  intro l
  induction l with
  | nil =>
    intro bs h
    unfold exMapM at h
    injection h with h2
    rw [← h2]
    rfl
  | cons a as ih =>
    intro bs h
    obtain ⟨b, bs2, _, hrec, hbs⟩ := exMapM_ok_cons_inv h
    subst hbs
    simp [ih hrec]

theorem exMapM_ok_getElem? {α β : Type} {f : α → Except HTTPErr β} :
    ∀ {l : List α} {bs : List β}, exMapM f l = .ok bs →
      ∀ (i : Nat) (a : α), l[i]? = some a → ∃ b, bs[i]? = some b ∧ f a = .ok b := by
  intro l
  induction l with
  | nil =>
    intro bs _ i a hia
    simp at hia
  | cons x as ih =>
    intro bs h i a hia
    obtain ⟨b, bs2, hfa, hrec, hbs⟩ := exMapM_ok_cons_inv h
    subst hbs
    cases i with
    | zero =>
      simp at hia
      subst hia
      exact ⟨b, by simp, hfa⟩
    | succ j =>
      simp only [List.getElem?_cons_succ] at hia ⊢
      exact ih hrec j a hia

theorem exMapM_error_of_mem {α β : Type} {f : α → Except HTTPErr β} {a : α}
    {e : HTTPErr} : ∀ {l : List α}, a ∈ l → f a = .error e →
      ∃ e2, exMapM f l = .error e2 := by
  intro l
  induction l with
  | nil =>
    intro hm
    exact absurd hm (List.not_mem_nil a)
  | cons x as ih =>
    intro hm he
    unfold exMapM
    cases hfx : f x
    · exact ⟨_, rfl⟩
    case ok b =>
      rcases List.mem_cons.mp hm with hax | has
      · subst hax
        rw [hfx] at he
        exact absurd he (by simp)
      · obtain ⟨e2, h2⟩ := ih has he
        rw [h2]
        exact ⟨e2, rfl⟩

theorem exMapM_ok_of_forall {α β : Type} {f : α → Except HTTPErr β} {g : α → β} :
    ∀ {l : List α}, (∀ a ∈ l, f a = .ok (g a)) → exMapM f l = .ok (l.map g) := by
  intro l
  induction l with
  | nil => intro _; rfl
  | cons a as ih =>
    intro h
    unfold exMapM
    rw [h a (List.mem_cons_self a as), ih fun x hx => h x (List.mem_cons_of_mem a hx)]
    rfl

/-! ## Helper lemmas about `foldl` -/

/-- A projection that `foldl` steps commute with can be pushed inside. -/
theorem foldl_proj {α β γ : Type} (π : β → γ) (F : β → α → β) (f : γ → α → γ)
    (h : ∀ b x, π (F b x) = f (π b) x) :
    ∀ (l : List α) (b : β), π (l.foldl F b) = l.foldl f (π b) := by
  intro l
  induction l with
  | nil => intro b; rfl
  | cons x xs ih =>
    intro b
    simp only [List.foldl_cons, ih, h]

/-- Folding a set-once update equals a single `any` test. -/
theorem setFold {α β : Type} (p : β → Prop) [DecidablePred p] (m : α) :
    ∀ (l : List β) (a : α),
      l.foldl (fun acc t => if p t then m else acc) a =
        if l.any (fun t => decide (p t)) then m else a := by
  intro l
  induction l with
  | nil => intro a; rfl
  | cons x xs ih =>
    intro a
    simp only [List.foldl_cons, ih, List.any_cons]
    by_cases hx : p x <;> by_cases hxs : xs.any (fun t => decide (p t)) = true <;>
      simp [hx, hxs]

/-- A fold whose step never changes the accumulator is the identity. -/
theorem foldl_const {α β : Type} (F : α → β → α) :
    ∀ (l : List β) (a : α), (∀ x ∈ l, ∀ g, F g x = g) → l.foldl F a = a := by
  intro l
  induction l with
  | nil => intro a _; rfl
  | cons x xs ih =>
    intro a h
    simp only [List.foldl_cons, h x (List.mem_cons_self x xs) a]
    exact ih a fun y hy => h y (List.mem_cons_of_mem x hy)

/-! ## Decimal representations consist of digits -/

theorem digitChar_isDigit {m : Nat} (h : m < 10) : (Nat.digitChar m).isDigit = true := by
  interval_cases m <;> decide

theorem toDigitsCore_digits :
    ∀ (fuel n : Nat) (ds : List Char), (∀ c ∈ ds, c.isDigit = true) →
      ∀ c ∈ Nat.toDigitsCore 10 fuel n ds, c.isDigit = true := by
  intro fuel
  induction fuel with
  | zero =>
    intro n ds hds c hc
    exact hds c hc
  | succ f ih =>
    intro n ds hds c hc
    unfold Nat.toDigitsCore at hc
    have hcons : ∀ x ∈ Nat.digitChar (n % 10) :: ds, x.isDigit = true := by
      intro x hx
      rcases List.mem_cons.mp hx with h1 | h2
      · rw [h1]
        exact digitChar_isDigit (Nat.mod_lt n (by norm_num))
      · exact hds x h2
    by_cases hz : n / 10 = 0
    · rw [if_pos hz] at hc
      exact hcons c hc
    · rw [if_neg hz] at hc
      exact ih (n / 10) _ hcons c hc

theorem repr_digits (n : Nat) : ∀ c ∈ (Nat.repr n).data, c.isDigit = true := by
  intro c hc
  have : (Nat.repr n).data = Nat.toDigits 10 n := rfl
  rw [this] at hc
  exact toDigitsCore_digits (n + 1) n [] (by intro x hx; exact absurd hx (List.not_mem_nil x)) c hc

theorem toDigitsCore_ne_nil :
    ∀ (fuel n : Nat) (ds : List Char), fuel ≠ 0 ∨ ds ≠ [] →
      Nat.toDigitsCore 10 fuel n ds ≠ [] := by
  intro fuel
  induction fuel with
  | zero =>
    intro n ds h
    rcases h with h1 | h2
    · exact absurd rfl h1
    · exact h2
  | succ f ih =>
    intro n ds _
    unfold Nat.toDigitsCore
    by_cases hz : n / 10 = 0
    · rw [if_pos hz]
      exact List.cons_ne_nil _ _
    · rw [if_neg hz]
      exact ih (n / 10) _ (Or.inr (List.cons_ne_nil _ _))

theorem repr_ne_nil (n : Nat) : (Nat.repr n).data ≠ [] := by
  have : (Nat.repr n).data = Nat.toDigits 10 n := rfl
  rw [this]
  exact toDigitsCore_ne_nil (n + 1) n [] (Or.inl (Nat.succ_ne_zero n))

/-! ## `strReplace` leaves digit-free strings alone -/

theorem strReplaceAux_no_match {p : Char} {ps rep : List Char}
    (hp : p.isDigit = true) :
    ∀ (fuel : Nat) (s : List Char), (∀ c ∈ s, c.isDigit = false) →
      strReplaceAux (p :: ps) rep fuel s = s := by
  intro fuel
  induction fuel with
  | zero =>
    intro s _
    cases s <;> rfl
  | succ f ih =>
    intro s hs
    cases s with
    | nil => rfl
    | cons c cs =>
      have hne : (p :: ps).isPrefixOf (c :: cs) = false := by
        by_contra hcontra
        have htrue : (p :: ps).isPrefixOf (c :: cs) = true := by
          cases hpre : (p :: ps).isPrefixOf (c :: cs)
          · exact absurd hpre hcontra
          · rfl
        have : p = c := by
          simp [List.isPrefixOf] at htrue
          exact htrue.1
        rw [this] at hp
        rw [hs c (List.mem_cons_self c cs)] at hp
        exact Bool.false_ne_true hp
      unfold strReplaceAux
      rw [hne]
      simp only [Bool.false_eq_true, if_false, List.cons.injEq, true_and]
      exact ih cs fun x hx => hs x (List.mem_cons_of_mem c hx)

theorem strReplace_no_digit {s : String} (hs : ∀ c ∈ s.data, c.isDigit = false)
    (n : Nat) (rep : String) : strReplace s (Nat.repr n) rep = s := by
  unfold strReplace
  cases hrepr : (Nat.repr n).data with
  | nil => exact absurd hrepr (repr_ne_nil n)
  | cons p ps =>
    have hp : p.isDigit = true := by
      apply repr_digits n
      rw [hrepr]
      exact List.mem_cons_self p ps
    rw [strReplaceAux_no_match hp s.data.length s.data hs]

theorem strReplace_NA (n : Nat) (rep : String) : strReplace "N/A" (Nat.repr n) rep = "N/A" :=
  strReplace_no_digit (by decide) n rep

theorem foldl_strReplace_NA (groups : List Group) :
    groups.foldl (fun s g => strReplace s (Nat.repr g.id) g.name) "N/A" = "N/A" := by
  induction groups with
  | nil => rfl
  | cons g gs ih =>
    simp only [List.foldl_cons, strReplace_NA]
    exact ih

/-! ## Characterizing the role scan -/

theorem inner_fst (flag : Bool) (key : String) :
    ∀ (l : List RoleRec) (acc : String × String × String),
      (l.foldl (roleStep flag key) acc).1 =
        l.foldl (fun g t => if t.id = 11 then key else g) acc.1 := by
  intro l
  induction l with
  | nil => intro acc; rfl
  | cons t ts ih =>
    intro acc
    simp only [List.foldl_cons, ih]
    rfl

theorem scanRoles_fst (flag : Bool) (roles : Roles) :
    (scanRoles flag roles).1 = lastId11Key roles := by
  unfold scanRoles lastId11Key
  have aux : ∀ (acc : String × String × String),
      (roles.foldl (fun acc kv => kv.2.foldl (roleStep flag kv.1) acc) acc).1 =
        roles.foldl (fun g kv => kv.2.foldl (fun g2 t => if t.id = 11 then kv.1 else g2) g)
          acc.1 := by
    induction roles with
    | nil => intro acc; rfl
    | cons kv kvs ih =>
      intro acc
      simp only [List.foldl_cons, ih, inner_fst]
  exact aux ("N/A", "", "")

theorem lastId11Key_of_no11 {roles : Roles}
    (h : ∀ kv ∈ roles, ∀ t ∈ kv.2, t.id ≠ 11) : lastId11Key roles = "N/A" := by
  unfold lastId11Key
  apply foldl_const
  intro kv hkv g
  apply foldl_const
  intro t ht g2
  rw [if_neg (h kv hkv t ht)]

theorem inner_admin (key : String) :
    ∀ (l : List RoleRec) (acc : String × String × String),
      (l.foldl (roleStep true key) acc).2.1 =
        if l.any (fun t => t.id == 2) then "X" else acc.2.1 := by
  intro l
  induction l with
  | nil => intro acc; rfl
  | cons t ts ih =>
    intro acc
    simp only [List.foldl_cons, List.any_cons, ih]
    by_cases h2 : t.id = 2 <;>
      by_cases hts : ts.any (fun t => t.id == 2) = true <;>
        simp [roleStep, h2, hts]

theorem scanRoles_admin (roles : Roles) :
    (scanRoles true roles).2.1 = if hasRoleId 2 roles then "X" else "" := by
  unfold scanRoles
  have aux : ∀ (acc : String × String × String),
      (roles.foldl (fun acc kv => kv.2.foldl (roleStep true kv.1) acc) acc).2.1 =
        if hasRoleId 2 roles then "X" else acc.2.1 := by
    induction roles with
    | nil => intro acc; rfl
    | cons kv kvs ih =>
      intro acc
      simp only [List.foldl_cons, ih, inner_admin, hasRoleId, List.any_cons]
      by_cases h2 : (kv.2.any fun t => t.id == 2) = true <;>
        by_cases hts : (kvs.any fun kv => kv.2.any fun t => t.id == 2) = true <;>
          simp [h2, hts]
  exact aux ("N/A", "", "")

theorem inner_reviewer (key : String) :
    ∀ (l : List RoleRec) (acc : String × String × String),
      (l.foldl (roleStep true key) acc).2.2 =
        if l.any (fun t => t.id == 49) then "X" else acc.2.2 := by
  intro l
  induction l with
  | nil => intro acc; rfl
  | cons t ts ih =>
    intro acc
    simp only [List.foldl_cons, List.any_cons, ih]
    by_cases h2 : t.id = 49 <;>
      by_cases hts : ts.any (fun t => t.id == 49) = true <;>
        simp [roleStep, h2, hts]

theorem scanRoles_reviewer (roles : Roles) :
    (scanRoles true roles).2.2 = if hasRoleId 49 roles then "X" else "" := by
  unfold scanRoles
  have aux : ∀ (acc : String × String × String),
      (roles.foldl (fun acc kv => kv.2.foldl (roleStep true kv.1) acc) acc).2.2 =
        if hasRoleId 49 roles then "X" else acc.2.2 := by
    induction roles with
    | nil => intro acc; rfl
    | cons kv kvs ih =>
      intro acc
      simp only [List.foldl_cons, ih, inner_reviewer, hasRoleId, List.any_cons]
      by_cases h2 : (kv.2.any fun t => t.id == 49) = true <;>
        by_cases hts : (kvs.any fun kv => kv.2.any fun t => t.id == 49) = true <;>
          simp [h2, hts]
  exact aux ("N/A", "", "")

/-! ## Characterizing the group-name substitution -/

theorem foldl_map_comm (h : Group → String → String) :
    ∀ (groups : List Group) (assoc : List String),
      groups.foldl (fun as g => as.map fun s => h g s) assoc
        = assoc.map fun s => groups.foldl (fun s2 g => h g s2) s := by
  intro groups
  induction groups with
  | nil =>
    intro assoc
    simp
  | cons g gs ih =>
    intro assoc
    simp only [List.foldl_cons, ih, List.map_map]
    rfl

theorem applyGroup_fst (groups : List Group) (assoc : List String) :
    (applyGroupReplacements groups assoc).1 =
      assoc.map fun s => groups.foldl (fun s2 g => strReplace s2 (Nat.repr g.id) g.name) s := by
  unfold applyGroupReplacements
  have h1 := foldl_proj (fun acc : List String × List LogEntry => acc.1)
    (fun acc (g : Group) =>
      ((acc.1.map fun sub => strReplace sub (Nat.repr g.id) g.name),
       acc.2 ++ [⟨Level.info, Nat.repr g.id ++ " - " ++ g.name⟩]))
    (fun as (g : Group) => as.map fun sub => strReplace sub (Nat.repr g.id) g.name)
    (fun _ _ => rfl) groups (assoc, [])
  exact h1.trans (foldl_map_comm (fun g s => strReplace s (Nat.repr g.id) g.name) groups assoc)

/-! ## The drop-index mechanism of `get_account_list` is an email filter -/

theorem contains_iff_mem {l : List Nat} {a : Nat} : l.contains a = true ↔ a ∈ l := by
  simp [List.contains]

theorem foldl_append_mem {σ : Type} (F : σ → List Nat) :
    ∀ (l : List σ) (init : List Nat) (x : Nat),
      x ∈ l.foldl (fun acc y => acc ++ F y) init ↔ x ∈ init ∨ ∃ y ∈ l, x ∈ F y := by
  intro l
  induction l with
  | nil =>
    intro init x
    simp
  | cons a as ih =>
    intro init x
    simp only [List.foldl_cons, ih, List.mem_append, List.mem_cons, exists_eq_or_imp]
    tauto

theorem mem_dropIndex {df : List AccountRow} {fs : List String} {i : Nat} :
    i ∈ dropIndex df fs ↔ ∃ ia ∈ fs, i ∈ matchedIdx df ia := by
  unfold dropIndex
  rw [foldl_append_mem]
  simp

theorem mem_matchedIdx {df : List AccountRow} {ia : String} {i : Nat} :
    i ∈ matchedIdx df ia ↔ ∃ r, df[i]? = some r ∧ strContains r.email ia = true := by
  unfold matchedIdx
  constructor
  · intro hm
    obtain ⟨p, hp, hpi⟩ := List.mem_map.mp hm
    obtain ⟨hpe, hpc⟩ := List.mem_filter.mp hp
    refine ⟨p.2, ?_, hpc⟩
    rw [← hpi]
    exact List.mem_enum_iff_getElem?.mp hpe
  · rintro ⟨r, hr, hc⟩
    exact List.mem_map.mpr
      ⟨(i, r), List.mem_filter.mpr ⟨List.mem_enum_iff_getElem?.mpr hr, hc⟩, rfl⟩

theorem filter_enum_notdrop {α : Type} (q : α → Bool) (d : Nat → Bool) :
    ∀ (df : List α) (s : Nat),
      (∀ p ∈ df.enumFrom s, d p.1 = q p.2) →
      ((df.enumFrom s).filter fun p => !(d p.1)).map (fun p => p.2)
        = df.filter fun r => !(q r) := by
  intro df
  induction df with
  | nil =>
    intro s _
    rfl
  | cons a as ih =>
    intro s hD
    rw [List.enumFrom_cons]
    have ha : d s = q a := hD (s, a) (List.mem_cons_self _ _)
    have htail := ih (s + 1) fun p hp => hD p (List.mem_cons_of_mem _ hp)
    cases hqa : q a with
    | true =>
      have hds : d s = true := ha.trans hqa
      simp [List.filter_cons, hds, hqa, htail]
    | false =>
      have hds : d s = false := ha.trans hqa
      simp [List.filter_cons, hds, hqa, htail]

/-- `get_account_list` when no admin filter is configured. -/
theorem get_account_list_none {cfg : Config} {env : Env} {raws : List RawAccount}
    (ha : env.accountsFetch = .ok raws) (hn : cfg.admin_filter = none) :
    get_account_list cfg env = .ok (raws.map dropInstitution, []) := by
  unfold get_account_list
  rw [ha, hn]

/-- `get_account_list` with a configured admin filter: the collected
`drop_index` rows are exactly those whose email matches some filter
string, so the kept rows are an order-preserving email filter. -/
theorem get_account_list_some {cfg : Config} {env : Env} {raws : List RawAccount}
    {fs : List String} (ha : env.accountsFetch = .ok raws)
    (hs : cfg.admin_filter = some fs) :
    get_account_list cfg env = .ok
      (((raws.map dropInstitution).filter
          fun r => !(fs.any fun ia => strContains r.email ia)),
       [⟨Level.info, "Excluding administrative and test accounts"⟩]) := by
  unfold get_account_list
  rw [ha, hs]
  refine congrArg Except.ok (congrArg (fun x => (x, _)) ?_)
  show (((raws.map dropInstitution).enumFrom 0).filter
      fun p => !((dropIndex (raws.map dropInstitution) fs).contains p.1)).map (fun p => p.2)
    = (raws.map dropInstitution).filter fun r => !(fs.any fun ia => strContains r.email ia)
  apply filter_enum_notdrop
  intro p hp
  have hpg : (raws.map dropInstitution)[p.1]? = some p.2 :=
    List.mem_enum_iff_getElem?.mp hp
  rw [Bool.eq_iff_iff, contains_iff_mem, List.any_eq_true]
  constructor
  · intro hc
    obtain ⟨ia, hia, him⟩ := mem_dropIndex.mp hc
    obtain ⟨r, hr, hcon⟩ := mem_matchedIdx.mp him
    rw [hpg] at hr
    refine ⟨ia, hia, ?_⟩
    rw [Option.some.inj hr]
    exact hcon
  · rintro ⟨ia, hia, hcon⟩
    exact mem_dropIndex.mpr ⟨ia, hia, mem_matchedIdx.mpr ⟨p.2, hpg, hcon⟩⟩

/-! ## Running the per-account loop body -/

theorem processAccount_ok {env : Env} {flag : Bool} {account_id : Nat} {roles : Roles}
    (h : env.rolesFetch account_id = .ok roles) :
    processAccount env flag account_id = .ok (accumOf env flag account_id roles) := by
  unfold processAccount
  rw [h]

theorem processAccount_ok_inv {env : Env} {flag : Bool} {account_id : Nat} {b : AcctAccum}
    (h : processAccount env flag account_id = .ok b) :
    ∃ roles, env.rolesFetch account_id = .ok roles ∧ b = accumOf env flag account_id roles := by
  unfold processAccount at h
  cases hr : env.rolesFetch account_id <;> rw [hr] at h
  · exact absurd h (by simp)
  case ok roles =>
    injection h with h2
    exact ⟨roles, rfl, h2.symm⟩

theorem accumOf_num_articles (env : Env) (flag : Bool) (account_id : Nat) (roles : Roles) :
    (accumOf env flag account_id roles).num_articles = countOf (env.articlesFetch account_id) := by
  unfold accumOf countOrWarn countOf
  cases env.articlesFetch account_id <;> rfl

theorem accumOf_num_projects (env : Env) (flag : Bool) (account_id : Nat) (roles : Roles) :
    (accumOf env flag account_id roles).num_projects = countOf (env.projectsFetch account_id) := by
  unfold accumOf countOrWarn countOf
  cases env.projectsFetch account_id <;> rfl

theorem accumOf_num_collections (env : Env) (flag : Bool) (account_id : Nat) (roles : Roles) :
    (accumOf env flag account_id roles).num_collections =
      countOf (env.collectionsFetch account_id) := by
  unfold accumOf countOrWarn countOf
  cases env.collectionsFetch account_id <;> rfl

theorem accumOf_group_assoc (env : Env) (flag : Bool) (account_id : Nat) (roles : Roles) :
    (accumOf env flag account_id roles).group_assoc = (scanRoles flag roles).1 := rfl

theorem accumOf_admin_flag (env : Env) (flag : Bool) (account_id : Nat) (roles : Roles) :
    (accumOf env flag account_id roles).admin_flag = (scanRoles flag roles).2.1 := rfl

theorem accumOf_reviewer_flag (env : Env) (flag : Bool) (account_id : Nat) (roles : Roles) :
    (accumOf env flag account_id roles).reviewer_flag = (scanRoles flag roles).2.2 := rfl

theorem accumOf_warning_articles {env : Env} {flag : Bool} {account_id : Nat}
    {roles : Roles} {e : HTTPErr} (he : env.articlesFetch account_id = .error e) :
    LogEntry.mk Level.warning ("Unable to retrieve articles for : " ++ Nat.repr account_id)
      ∈ (accumOf env flag account_id roles).logs := by
  simp [accumOf, countOrWarn, he]

theorem accumOf_warning_projects {env : Env} {flag : Bool} {account_id : Nat}
    {roles : Roles} {e : HTTPErr} (he : env.projectsFetch account_id = .error e) :
    LogEntry.mk Level.warning ("Unable to retrieve projects for : " ++ Nat.repr account_id)
      ∈ (accumOf env flag account_id roles).logs := by
  simp [accumOf, countOrWarn, he]

theorem accumOf_warning_collections {env : Env} {flag : Bool} {account_id : Nat}
    {roles : Roles} {e : HTTPErr} (he : env.collectionsFetch account_id = .error e) :
    LogEntry.mk Level.warning ("Unable to retrieve collections for : " ++ Nat.repr account_id)
      ∈ (accumOf env flag account_id roles).logs := by
  simp [accumOf, countOrWarn, he]

/-! ## Running the whole aggregation -/

theorem details_eq_of {cfg : Config} {env : Env} {flag : Bool}
    {rows : List AccountRow} {logs0 : List LogEntry} {gs : List Group}
    {accums : List AcctAccum}
    (hl : get_account_list cfg env = .ok (rows, logs0))
    (hg : env.groupsFetch = .ok gs)
    (hm : exMapM (fun row => processAccount env flag row.id) rows = .ok accums) :
    get_account_details cfg env flag = .ok
      ({ rows := rows,
         articles := accums.map fun a => a.num_articles,
         projects := accums.map fun a => a.num_projects,
         collections := accums.map fun a => a.num_collections,
         admin := if flag then some (accums.map fun a => a.admin_flag) else none,
         reviewer := if flag then some (accums.map fun a => a.reviewer_flag) else none,
         group := (applyGroupReplacements gs (accums.map fun a => a.group_assoc)).1 },
       logs0 ++ (accums.map fun a => a.logs).flatten
         ++ (applyGroupReplacements gs (accums.map fun a => a.group_assoc)).2) := by
  unfold get_account_details
  simp only [hl, hg, hm]

theorem details_error_list {cfg : Config} {env : Env} {flag : Bool} {e : HTTPErr}
    (hl : get_account_list cfg env = .error e) :
    get_account_details cfg env flag = .error e := by
  unfold get_account_details
  rw [hl]

theorem details_error_groups {cfg : Config} {env : Env} {flag : Bool}
    {rows : List AccountRow} {logs0 : List LogEntry} {e : HTTPErr}
    (hl : get_account_list cfg env = .ok (rows, logs0))
    (hg : env.groupsFetch = .error e) :
    get_account_details cfg env flag = .error e := by
  unfold get_account_details
  simp only [hl, hg]

theorem details_error_mapM {cfg : Config} {env : Env} {flag : Bool}
    {rows : List AccountRow} {logs0 : List LogEntry} {gs : List Group} {e : HTTPErr}
    (hl : get_account_list cfg env = .ok (rows, logs0))
    (hg : env.groupsFetch = .ok gs)
    (hm : exMapM (fun row => processAccount env flag row.id) rows = .error e) :
    get_account_details cfg env flag = .error e := by
  unfold get_account_details
  simp only [hl, hg, hm]

theorem get_account_details_ok {cfg : Config} {env : Env} {flag : Bool}
    {rows : List AccountRow} {logs0 : List LogEntry} {gs : List Group}
    (R : AccountRow → Roles)
    (hl : get_account_list cfg env = .ok (rows, logs0))
    (hg : env.groupsFetch = .ok gs)
    (hr : ∀ r ∈ rows, env.rolesFetch r.id = .ok (R r)) :
    get_account_details cfg env flag = .ok
      ({ rows := rows,
         articles := rows.map fun r => (accumOf env flag r.id (R r)).num_articles,
         projects := rows.map fun r => (accumOf env flag r.id (R r)).num_projects,
         collections := rows.map fun r => (accumOf env flag r.id (R r)).num_collections,
         admin := if flag then
           some (rows.map fun r => (accumOf env flag r.id (R r)).admin_flag) else none,
         reviewer := if flag then
           some (rows.map fun r => (accumOf env flag r.id (R r)).reviewer_flag) else none,
         group := (applyGroupReplacements gs
           (rows.map fun r => (accumOf env flag r.id (R r)).group_assoc)).1 },
       logs0 ++ (rows.map fun r => (accumOf env flag r.id (R r)).logs).flatten
         ++ (applyGroupReplacements gs
           (rows.map fun r => (accumOf env flag r.id (R r)).group_assoc)).2) := by
  have hm : exMapM (fun row => processAccount env flag row.id) rows
      = .ok (rows.map fun r => accumOf env flag r.id (R r)) :=
    exMapM_ok_of_forall fun r hrm => processAccount_ok (hr r hrm)
  rw [details_eq_of hl hg hm]
  simp only [List.map_map]
  rfl

theorem get_account_details_ok_inv {cfg : Config} {env : Env} {flag : Bool}
    {rows : List AccountRow} {logs0 logs : List LogEntry} {tbl : AccountDetails}
    (hl : get_account_list cfg env = .ok (rows, logs0))
    (hd : get_account_details cfg env flag = .ok (tbl, logs)) :
    ∃ gs accums,
      env.groupsFetch = .ok gs ∧
      exMapM (fun row => processAccount env flag row.id) rows = .ok accums ∧
      tbl.rows = rows ∧
      tbl.articles = accums.map (fun a => a.num_articles) ∧
      tbl.projects = accums.map (fun a => a.num_projects) ∧
      tbl.collections = accums.map (fun a => a.num_collections) ∧
      tbl.admin = (if flag then some (accums.map fun a => a.admin_flag) else none) ∧
      tbl.reviewer = (if flag then some (accums.map fun a => a.reviewer_flag) else none) ∧
      tbl.group = (applyGroupReplacements gs (accums.map fun a => a.group_assoc)).1 ∧
      logs = logs0 ++ (accums.map fun a => a.logs).flatten
        ++ (applyGroupReplacements gs (accums.map fun a => a.group_assoc)).2 := by
  cases hg : env.groupsFetch with
  | error e =>
    have := (@details_error_groups cfg env flag rows logs0 e hl hg).symm.trans hd
    exact absurd this (by simp)
  | ok gs =>
    cases hm : exMapM (fun row => processAccount env flag row.id) rows with
    | error e =>
      have := (@details_error_mapM cfg env flag rows logs0 gs e hl hg hm).symm.trans hd
      exact absurd this (by simp)
    | ok accums =>
      have heq := (@details_eq_of cfg env flag rows logs0 gs accums hl hg hm).symm.trans hd
      injection heq with heq2
      have h1 := congrArg Prod.fst heq2
      have h2 := congrArg Prod.snd heq2
      simp only at h1 h2
      refine ⟨gs, accums, rfl, rfl, ?_, ?_, ?_, ?_, ?_, ?_, ?_, ?_⟩ <;>
        simp [← h1, ← h2]

/-! ## Claim theorems -/

/-- C3: `reserve_doi` issues the state-mutating reservation POST iff the
article's DOI check reports unreserved and the operator's input,
lowercased, equals exactly "yes"; on an already-reserved article it
returns the existing DOI without any POST; on any other input it logs a
warning and returns the prior DOI (null when the DOI field was null)
without any POST. -/
theorem C3_reserve_doi_post_iff (env : ReserveEnv) :
    ((reserve_doi env).posted = true ↔
      ((doi_check env.doiField).1 = false ∧ strLower env.operatorInput = "yes")) ∧
    ((doi_check env.doiField).1 = true →
      (reserve_doi env).returnedDoi = (doi_check env.doiField).2 ∧
      (reserve_doi env).posted = false) ∧
    ((doi_check env.doiField).1 = false → strLower env.operatorInput ≠ "yes" →
      (reserve_doi env).returnedDoi = (doi_check env.doiField).2 ∧
      (reserve_doi env).posted = false ∧
      LogEntry.mk Level.warning "Skipping... " ∈ (reserve_doi env).logs ∧
      (env.doiField = none → (reserve_doi env).returnedDoi = none)) ∧
    ((doi_check env.doiField).1 = false → strLower env.operatorInput = "yes" →
      (reserve_doi env).returnedDoi = some env.mintedDoi ∧
      (reserve_doi env).posted = true) := by
  by_cases hc : pyTruthy env.doiField = true <;>
    by_cases hy : strLower env.operatorInput = "yes" <;>
      simp [reserve_doi, doi_check, hc, hy]

/-- Witness for C3: with a null DOI field, input "no" declines (warning,
no POST, null returned) and input "yes" posts and returns the minted DOI. -/
theorem C3_witness :
    (reserve_doi ⟨none, "10.5/z", "no"⟩).posted = false ∧
    (reserve_doi ⟨none, "10.5/z", "no"⟩).returnedDoi = none ∧
    LogEntry.mk Level.warning "Skipping... " ∈ (reserve_doi ⟨none, "10.5/z", "no"⟩).logs ∧
    (reserve_doi ⟨none, "10.5/z", "yes"⟩).posted = true ∧
    (reserve_doi ⟨none, "10.5/z", "yes"⟩).returnedDoi = some "10.5/z" :=
  ⟨((C3_reserve_doi_post_iff ⟨none, "10.5/z", "no"⟩).2.2.1 rfl (by decide)).2.1,
   ((C3_reserve_doi_post_iff ⟨none, "10.5/z", "no"⟩).2.2.1 rfl (by decide)).2.2.2 rfl,
   ((C3_reserve_doi_post_iff ⟨none, "10.5/z", "no"⟩).2.2.1 rfl (by decide)).2.2.1,
   ((C3_reserve_doi_post_iff ⟨none, "10.5/z", "yes"⟩).2.2.2 rfl (by decide)).2,
   ((C3_reserve_doi_post_iff ⟨none, "10.5/z", "yes"⟩).2.2.2 rfl (by decide)).1⟩

/-- C6 counterexample: on an empty-string DOI field, `doi_check` returns
`(false, "")`, not the claimed `(false, null)`. -/
theorem C6_counterexample :
    doi_check (some "") = (false, some "") ∧ doi_check (some "") ≠ (false, none) :=
  ⟨rfl, by decide⟩

/-- C6 amended: `doi_check` returns `(true, d)` for a non-empty DOI
string `d`, and `(false, v)` where `v` is the field unchanged when it is
null or empty (null stays null, "" stays ""). -/
theorem C6_doi_check (d : Option String) :
    (∀ s, d = some s → s ≠ "" → doi_check d = (true, some s)) ∧
    (d = none → doi_check d = (false, none)) ∧
    (d = some "" → doi_check d = (false, some "")) := by
  refine ⟨?_, ?_, ?_⟩
  · intro s hds hs
    subst hds
    simp [doi_check, pyTruthy, hs]
  · intro h
    subst h
    rfl
  · intro h
    subst h
    rfl

/-- Witness for C6 amended: a concrete reserved DOI. -/
theorem C6_witness : doi_check (some "10.x/abc") = (true, some "10.x/abc") :=
  (C6_doi_check (some "10.x/abc")).1 "10.x/abc" rfl (by decide)

/-- C4 counterexample: in `envAbort` only account 1's role fetch raises,
yet the whole aggregation raises: no table is produced for any account. -/
theorem C4_counterexample :
    get_account_details cfgNone envAbort true = .error ⟨500⟩ := rfl

/-- C5 counterexample: the data-curator key "12" should resolve to group
12 ("B") per the claim, but group-list-order substring replacement turns
it into "A2" (group 1 is substituted inside "12" first). -/
theorem C5_counterexample :
    (get_account_details cfgNone envCollide true).map (fun p => p.1.group) = .ok ["A2"] ∧
    (Except.ok ["A2"] : Except HTTPErr (List String)) ≠ .ok ["B"] :=
  ⟨rfl, by simp⟩

/-- C7 counterexample: with `flag=False` the Admin/Reviewer columns are
absent from the result entirely (`none`), not arrays of empty strings. -/
theorem C7_counterexample :
    (get_account_details cfgW envW false).map (fun p => (p.1.admin, p.1.reviewer))
      = .ok (none, none) ∧
    (Except.ok ((none : Option (List String)), (none : Option (List String)))
      ≠ (.ok (some ["", ""], some ["", ""])
          : Except HTTPErr (Option (List String) × Option (List String)))) :=
  ⟨rfl, by simp⟩

/-- C9 counterexample: the groups accessor issues its GET with no params
argument at all, so it does not carry page/page_size pagination
parameters. -/
theorem C9_counterexample :
    ¬ (∀ r ∈ get_groups_requests false, ("page", (1 : Nat)) ∈ r.params ∧
        ("page_size", (1000 : Nat)) ∈ r.params) := by
  decide

/-- C9 amended: every accessor issues exactly one GET and never fetches a
page beyond the first; the articles, user-articles, user-projects,
user-collections and account-list accessors carry page=1 and
page_size=1000, the curation-list accessor carries offset=0 and
limit=1000, and the groups accessor carries no pagination parameters. -/
theorem C9_requests (stage : Bool) (account_id : Nat) (article_id : Option Nat) :
    ((get_articles_requests stage).length = 1 ∧
     ∀ r ∈ get_articles_requests stage, r.method = Method.GET ∧
       ("page", (1 : Nat)) ∈ r.params ∧ ("page_size", (1000 : Nat)) ∈ r.params ∧
       ∀ p, ("page", p) ∈ r.params → p = 1) ∧
    ((get_user_articles_requests stage account_id).length = 1 ∧
     ∀ r ∈ get_user_articles_requests stage account_id, r.method = Method.GET ∧
       ("page", (1 : Nat)) ∈ r.params ∧ ("page_size", (1000 : Nat)) ∈ r.params ∧
       ∀ p, ("page", p) ∈ r.params → p = 1) ∧
    ((get_user_projects_requests stage account_id).length = 1 ∧
     ∀ r ∈ get_user_projects_requests stage account_id, r.method = Method.GET ∧
       ("page", (1 : Nat)) ∈ r.params ∧ ("page_size", (1000 : Nat)) ∈ r.params ∧
       ∀ p, ("page", p) ∈ r.params → p = 1) ∧
    ((get_user_collections_requests stage account_id).length = 1 ∧
     ∀ r ∈ get_user_collections_requests stage account_id, r.method = Method.GET ∧
       ("page", (1 : Nat)) ∈ r.params ∧ ("page_size", (1000 : Nat)) ∈ r.params ∧
       ∀ p, ("page", p) ∈ r.params → p = 1) ∧
    ((get_account_list_requests stage).length = 1 ∧
     ∀ r ∈ get_account_list_requests stage, r.method = Method.GET ∧
       ("page", (1 : Nat)) ∈ r.params ∧ ("page_size", (1000 : Nat)) ∈ r.params ∧
       ∀ p, ("page", p) ∈ r.params → p = 1) ∧
    ((get_groups_requests stage).length = 1 ∧
     ∀ r ∈ get_groups_requests stage, r.method = Method.GET ∧ r.params = []) ∧
    ((get_curation_list_requests stage article_id).length = 1 ∧
     ∀ r ∈ get_curation_list_requests stage article_id, r.method = Method.GET ∧
       ("offset", (0 : Nat)) ∈ r.params ∧ ("limit", (1000 : Nat)) ∈ r.params ∧
       ∀ p, ¬ ("page", p) ∈ r.params) := by
  refine ⟨⟨rfl, ?_⟩, ⟨rfl, ?_⟩, ⟨rfl, ?_⟩, ⟨rfl, ?_⟩, ⟨rfl, ?_⟩, ⟨rfl, ?_⟩, ⟨rfl, ?_⟩⟩
  · intro r hr
    simp only [get_articles_requests, List.mem_singleton] at hr
    subst hr
    refine ⟨rfl, by simp, by simp, ?_⟩
    intro p hp
    simp [Prod.ext_iff] at hp
    exact hp
  · intro r hr
    simp only [get_user_articles_requests, List.mem_singleton] at hr
    subst hr
    refine ⟨rfl, by simp, by simp, ?_⟩
    intro p hp
    simp [Prod.ext_iff] at hp
    exact hp
  · intro r hr
    simp only [get_user_projects_requests, List.mem_singleton] at hr
    subst hr
    refine ⟨rfl, by simp, by simp, ?_⟩
    intro p hp
    simp [Prod.ext_iff] at hp
    exact hp
  · intro r hr
    simp only [get_user_collections_requests, List.mem_singleton] at hr
    subst hr
    refine ⟨rfl, by simp, by simp, ?_⟩
    intro p hp
    simp [Prod.ext_iff] at hp
    exact hp
  · intro r hr
    simp only [get_account_list_requests, List.mem_singleton] at hr
    subst hr
    refine ⟨rfl, by simp, by simp, ?_⟩
    intro p hp
    simp [Prod.ext_iff] at hp
    exact hp
  · intro r hr
    simp only [get_groups_requests, List.mem_singleton] at hr
    subst hr
    exact ⟨rfl, rfl⟩
  · cases article_id with
    | none =>
      intro r hr
      simp only [get_curation_list_requests, List.mem_singleton] at hr
      subst hr
      refine ⟨rfl, by simp, by simp, ?_⟩
      intro p hp
      simp [Prod.ext_iff] at hp
    | some a =>
      intro r hr
      simp only [get_curation_list_requests, List.mem_singleton] at hr
      subst hr
      refine ⟨rfl, by simp, by simp, ?_⟩
      intro p hp
      simp [Prod.ext_iff] at hp

/-- Witness for C9 amended: the concrete production-mode requests. -/
theorem C9_witness :
    (get_articles_requests false).length = 1 ∧
    (Request.method ⟨Method.GET, endpoint false "groups", []⟩ = Method.GET ∧
     Request.params ⟨Method.GET, endpoint false "groups", []⟩ = []) ∧
    ("page", (1 : Nat)) ∈ Request.params
      ⟨Method.GET, endpoint false "articles",
       [("page", 1), ("page_size", 1000)]⟩ :=
  ⟨(C9_requests false 7 (some 3)).1.1,
   (C9_requests false 7 (some 3)).2.2.2.2.2.1.2
     ⟨Method.GET, endpoint false "groups", []⟩ (by decide),
   ((C9_requests false 7 (some 3)).1.2
     ⟨Method.GET, endpoint false "articles",
      [("page", 1), ("page_size", 1000)]⟩ (by decide)).2.1⟩

/-- C4 amended: an HTTP error from a surviving account's role-structure
fetch propagates and aborts the whole aggregation (the result is an
error; no account's row is produced); only the
articles/projects/collections fetches are isolated. -/
theorem C4_roles_error_aborts {cfg : Config} {env : Env} {flag : Bool}
    {rows : List AccountRow} {logs0 : List LogEntry} {r : AccountRow} {e : HTTPErr}
    (hl : get_account_list cfg env = .ok (rows, logs0))
    (hmem : r ∈ rows) (he : env.rolesFetch r.id = .error e) :
    ∃ e2, get_account_details cfg env flag = .error e2 := by
  cases hg : env.groupsFetch with
  | error e3 => exact ⟨e3, details_error_groups hl hg⟩
  | ok gs =>
    have hpe : processAccount env flag r.id = .error e := by
      unfold processAccount
      rw [he]
    obtain ⟨e2, hm⟩ := @exMapM_error_of_mem AccountRow AcctAccum
      (fun row => processAccount env flag row.id) r e rows hmem hpe
    exact ⟨e2, details_error_mapM hl hg hm⟩

/-- Witness for C4 amended: account 1's roles fetch error in `envAbort`
makes the whole aggregation error. -/
theorem C4_witness : ∃ e2, get_account_details cfgNone envAbort true = .error e2 :=
  @C4_roles_error_aborts cfgNone envAbort true rowsAbort [] ⟨1, "a@x.org", []⟩ ⟨500⟩
    rfl (by decide) rfl

/-- C8: the account-list operation drops the institution-reference column
(per-row `dropInstitution`) and, when an admin filter is configured,
removes exactly the rows whose email contains some configured substring,
keeping the survivors contiguously in their original order. -/
theorem C8_account_list_filter {cfg : Config} {env : Env} {raws : List RawAccount}
    {rows : List AccountRow} {logs : List LogEntry}
    (ha : env.accountsFetch = .ok raws)
    (h : get_account_list cfg env = .ok (rows, logs)) :
    (cfg.admin_filter = none → rows = raws.map dropInstitution) ∧
    (∀ fs, cfg.admin_filter = some fs →
      rows = (raws.map dropInstitution).filter
        fun r => !(fs.any fun ia => strContains r.email ia)) := by
  constructor
  · intro hn
    have h2 := (get_account_list_none ha hn).symm.trans h
    injection h2 with h3
    have h4 := congrArg Prod.fst h3
    simp only at h4
    exact h4.symm
  · intro fs hs
    have h2 := (get_account_list_some ha hs).symm.trans h
    injection h2 with h3
    have h4 := congrArg Prod.fst h3
    simp only at h4
    exact h4.symm

/-- Witness for C8: emails `["a@x.org", "test@x.org", "b@x.org"]` with
filter `["test"]` keep exactly the first and third rows, in order. -/
theorem C8_witness :
    rowsW = (rawsW.map dropInstitution).filter
      (fun r => !((["test"].any fun ia => strContains r.email ia))) ∧
    rowsW = [⟨1, "a@x.org", []⟩, ⟨3, "b@x.org", []⟩] :=
  ⟨(@C8_account_list_filter cfgW envW rawsW rowsW logsW rfl rfl).2 ["test"] rfl, rfl⟩

/-- C1: whenever the aggregation succeeds, its table has exactly one row
per account surviving the admin filter, in the original order, its three
count columns cover every row (always-present integers), and a count is
zero whenever the corresponding per-account fetch raised. -/
theorem C1_table_shape {cfg : Config} {env : Env} {flag : Bool}
    {rows : List AccountRow} {logs0 logs : List LogEntry} {tbl : AccountDetails}
    (hl : get_account_list cfg env = .ok (rows, logs0))
    (hd : get_account_details cfg env flag = .ok (tbl, logs)) :
    tbl.rows = rows ∧
    tbl.articles.length = rows.length ∧
    tbl.projects.length = rows.length ∧
    tbl.collections.length = rows.length ∧
    (∀ (i : Nat) (r : AccountRow) (e : HTTPErr), rows[i]? = some r →
      (env.articlesFetch r.id = .error e → tbl.articles[i]? = some 0) ∧
      (env.projectsFetch r.id = .error e → tbl.projects[i]? = some 0) ∧
      (env.collectionsFetch r.id = .error e → tbl.collections[i]? = some 0)) := by
  obtain ⟨gs, accums, hg, hm, hrows, hart, hproj, hcoll, hadm, hrev, hgrp, hlogs⟩ :=
    get_account_details_ok_inv hl hd
  have hlen := exMapM_ok_length hm
  refine ⟨hrows, by rw [hart, List.length_map, hlen],
    by rw [hproj, List.length_map, hlen], by rw [hcoll, List.length_map, hlen], ?_⟩
  intro i r e hir
  obtain ⟨b, hbi, hb⟩ := exMapM_ok_getElem? hm i r hir
  obtain ⟨roles, hrl, hbe⟩ := processAccount_ok_inv hb
  refine ⟨fun he => ?_, fun he => ?_, fun he => ?_⟩
  · rw [hart, List.getElem?_map, hbi]
    simp [hbe, accumOf_num_articles, countOf, he]
  · rw [hproj, List.getElem?_map, hbi]
    simp [hbe, accumOf_num_projects, countOf, he]
  · rw [hcoll, List.getElem?_map, hbi]
    simp [hbe, accumOf_num_collections, countOf, he]

/-- Witness for C1: the concrete run on `envW`, where account 3's
articles fetch and account 1's collections fetch raise. -/
theorem C1_witness :
    tblW.rows = rowsW ∧
    tblW.articles.length = rowsW.length ∧
    tblW.articles[1]? = some 0 ∧
    tblW.collections[0]? = some 0 :=
  ⟨(@C1_table_shape cfgW envW true rowsW logsW logsW2 tblW rfl rfl).1,
   (@C1_table_shape cfgW envW true rowsW logsW logsW2 tblW rfl rfl).2.1,
   ((@C1_table_shape cfgW envW true rowsW logsW logsW2 tblW rfl rfl).2.2.2.2
     1 ⟨3, "b@x.org", []⟩ ⟨404⟩ rfl).1 rfl,
   ((@C1_table_shape cfgW envW true rowsW logsW logsW2 tblW rfl rfl).2.2.2.2
     0 ⟨1, "a@x.org", []⟩ ⟨500⟩ rfl).2.2 rfl⟩

/-- C10: the aggregation never modifies the filtered account rows it
starts from — they appear unchanged in the result — and it only appends
the count, group and (when flags are requested) Admin/Reviewer columns,
each covering every row. -/
theorem C10_frame {cfg : Config} {env : Env} {flag : Bool}
    {rows : List AccountRow} {logs0 logs : List LogEntry} {tbl : AccountDetails}
    (hl : get_account_list cfg env = .ok (rows, logs0))
    (hd : get_account_details cfg env flag = .ok (tbl, logs)) :
    tbl.rows = rows ∧
    tbl.articles.length = rows.length ∧
    tbl.projects.length = rows.length ∧
    tbl.collections.length = rows.length ∧
    tbl.group.length = rows.length ∧
    (flag = true → tbl.admin.isSome = true ∧ tbl.reviewer.isSome = true) ∧
    (flag = false → tbl.admin = none ∧ tbl.reviewer = none) := by
  obtain ⟨gs, accums, hg, hm, hrows, hart, hproj, hcoll, hadm, hrev, hgrp, hlogs⟩ :=
    get_account_details_ok_inv hl hd
  have hlen := exMapM_ok_length hm
  refine ⟨hrows, by rw [hart, List.length_map, hlen],
    by rw [hproj, List.length_map, hlen], by rw [hcoll, List.length_map, hlen],
    ?_, ?_, ?_⟩
  · rw [hgrp, applyGroup_fst, List.length_map, List.length_map, hlen]
  · intro hf
    subst hf
    rw [hadm, hrev]
    simp
  · intro hf
    subst hf
    rw [hadm, hrev]
    simp

/-- Witness for C10: the concrete run on `envW` keeps the filtered rows
unchanged and has flag columns present for `flag=True`. -/
theorem C10_witness :
    tblW.rows = rowsW ∧
    tblW.group.length = rowsW.length ∧
    (tblW.admin.isSome = true ∧ tblW.reviewer.isSome = true) :=
  ⟨(@C10_frame cfgW envW true rowsW logsW logsW2 tblW rfl rfl).1,
   (@C10_frame cfgW envW true rowsW logsW logsW2 tblW rfl rfl).2.2.2.2.1,
   (@C10_frame cfgW envW true rowsW logsW logsW2 tblW rfl rfl).2.2.2.2.2.1 rfl⟩

/-- C2: when the account list, group list and every surviving account's
roles fetch succeed, the aggregation completes (no re-raise) regardless
of articles/projects/collections failures; each count equals the fetched
row count, is zero on an HTTP error, and each failure logs a warning
naming the account; other accounts' results are the values of their own
fetches, unaffected. -/
theorem C2_isolated_failures {cfg : Config} {env : Env} {flag : Bool}
    {rows : List AccountRow} {logs0 : List LogEntry} {gs : List Group}
    (R : AccountRow → Roles)
    (hl : get_account_list cfg env = .ok (rows, logs0))
    (hg : env.groupsFetch = .ok gs)
    (hr : ∀ r ∈ rows, env.rolesFetch r.id = .ok (R r)) :
    ∃ tbl logs, get_account_details cfg env flag = .ok (tbl, logs) ∧
      ∀ (i : Nat) (r : AccountRow), rows[i]? = some r →
        tbl.articles[i]? = some (countOf (env.articlesFetch r.id)) ∧
        tbl.projects[i]? = some (countOf (env.projectsFetch r.id)) ∧
        tbl.collections[i]? = some (countOf (env.collectionsFetch r.id)) ∧
        (∀ e, env.articlesFetch r.id = .error e →
          tbl.articles[i]? = some 0 ∧
          LogEntry.mk Level.warning
            ("Unable to retrieve articles for : " ++ Nat.repr r.id) ∈ logs) ∧
        (∀ e, env.projectsFetch r.id = .error e →
          tbl.projects[i]? = some 0 ∧
          LogEntry.mk Level.warning
            ("Unable to retrieve projects for : " ++ Nat.repr r.id) ∈ logs) ∧
        (∀ e, env.collectionsFetch r.id = .error e →
          tbl.collections[i]? = some 0 ∧
          LogEntry.mk Level.warning
            ("Unable to retrieve collections for : " ++ Nat.repr r.id) ∈ logs) := by
  refine ⟨_, _, get_account_details_ok R hl hg hr, ?_⟩
  intro i r hir
  have hmem : r ∈ rows := List.getElem?_mem hir
  have hartc : (rows.map fun r2 => (accumOf env flag r2.id (R r2)).num_articles)[i]?
      = some ((accumOf env flag r.id (R r)).num_articles) := by
    rw [List.getElem?_map, hir]
    rfl
  have hprojc : (rows.map fun r2 => (accumOf env flag r2.id (R r2)).num_projects)[i]?
      = some ((accumOf env flag r.id (R r)).num_projects) := by
    rw [List.getElem?_map, hir]
    rfl
  have hcollc : (rows.map fun r2 => (accumOf env flag r2.id (R r2)).num_collections)[i]?
      = some ((accumOf env flag r.id (R r)).num_collections) := by
    rw [List.getElem?_map, hir]
    rfl
  have hwmem : ∀ x, x ∈ (accumOf env flag r.id (R r)).logs →
      x ∈ logs0 ++ (rows.map fun r2 => (accumOf env flag r2.id (R r2)).logs).flatten
        ++ (applyGroupReplacements gs
          (rows.map fun r2 => (accumOf env flag r2.id (R r2)).group_assoc)).2 := by
    intro x hx
    have hin : (accumOf env flag r.id (R r)).logs
        ∈ rows.map fun r2 => (accumOf env flag r2.id (R r2)).logs :=
      List.mem_map.mpr ⟨r, hmem, rfl⟩
    exact List.mem_append.mpr
      (Or.inl (List.mem_append.mpr (Or.inr (List.mem_flatten.mpr ⟨_, hin, hx⟩))))
  simp only []
  refine ⟨?_, ?_, ?_, ?_, ?_, ?_⟩
  · rw [hartc, accumOf_num_articles]
  · rw [hprojc, accumOf_num_projects]
  · rw [hcollc, accumOf_num_collections]
  · intro e he
    refine ⟨?_, hwmem _ (accumOf_warning_articles he)⟩
    rw [hartc, accumOf_num_articles, he]
    rfl
  · intro e he
    refine ⟨?_, hwmem _ (accumOf_warning_projects he)⟩
    rw [hprojc, accumOf_num_projects, he]
    rfl
  · intro e he
    refine ⟨?_, hwmem _ (accumOf_warning_collections he)⟩
    rw [hcollc, accumOf_num_collections, he]
    rfl

/-- Witness for C2: the concrete run on `envW` (two isolated failures),
yielding counts `[2,0]`, `[1,1]`, `[0,0]` and the two warnings. -/
theorem C2_witness :
    ∃ tbl logs, get_account_details cfgW envW true = .ok (tbl, logs) ∧
      ∀ (i : Nat) (r : AccountRow), rowsW[i]? = some r →
        tbl.articles[i]? = some (countOf (envW.articlesFetch r.id)) ∧
        tbl.projects[i]? = some (countOf (envW.projectsFetch r.id)) ∧
        tbl.collections[i]? = some (countOf (envW.collectionsFetch r.id)) ∧
        (∀ e, envW.articlesFetch r.id = .error e →
          tbl.articles[i]? = some 0 ∧
          LogEntry.mk Level.warning
            ("Unable to retrieve articles for : " ++ Nat.repr r.id) ∈ logs) ∧
        (∀ e, envW.projectsFetch r.id = .error e →
          tbl.projects[i]? = some 0 ∧
          LogEntry.mk Level.warning
            ("Unable to retrieve projects for : " ++ Nat.repr r.id) ∈ logs) ∧
        (∀ e, envW.collectionsFetch r.id = .error e →
          tbl.collections[i]? = some 0 ∧
          LogEntry.mk Level.warning
            ("Unable to retrieve collections for : " ++ Nat.repr r.id) ∈ logs) :=
  @C2_isolated_failures cfgW envW true rowsW logsW [⟨100, "Science"⟩] RW
    rfl rfl (by decide)

/-- C5 amended: the final group-association field is the last id-11 key
transformed by successive global substring replacement of each group's
stringified id with its name, in group-list order (which yields the
matching group's name only when no substring collision occurs); absent
any id-11 record, the field remains the literal "N/A". -/
theorem C5_group_association {cfg : Config} {env : Env} {flag : Bool}
    {rows : List AccountRow} {logs0 logs : List LogEntry} {gs : List Group}
    {tbl : AccountDetails} {i : Nat} {r : AccountRow} {roles : Roles}
    (hl : get_account_list cfg env = .ok (rows, logs0))
    (hg : env.groupsFetch = .ok gs)
    (hd : get_account_details cfg env flag = .ok (tbl, logs))
    (hir : rows[i]? = some r)
    (hrr : env.rolesFetch r.id = .ok roles) :
    tbl.group[i]? = some (gs.foldl
      (fun s g => strReplace s (Nat.repr g.id) g.name) (lastId11Key roles)) ∧
    ((∀ kv ∈ roles, ∀ t ∈ kv.2, t.id ≠ 11) → tbl.group[i]? = some "N/A") := by
  obtain ⟨gs2, accums, hg2, hm, hrows, hart, hproj, hcoll, hadm, hrev, hgrp, hlogs⟩ :=
    get_account_details_ok_inv hl hd
  have hgs : gs2 = gs := (Except.ok.inj (hg.symm.trans hg2)).symm
  rw [hgs] at hgrp
  obtain ⟨b, hbi, hb⟩ := exMapM_ok_getElem? hm i r hir
  obtain ⟨roles2, hrl2, hbe⟩ := processAccount_ok_inv hb
  have hro : roles2 = roles := (Except.ok.inj (hrr.symm.trans hrl2)).symm
  have hbe2 : b = accumOf env flag r.id roles := by
    rw [hbe, hro]
  have hmain : tbl.group[i]? = some (gs.foldl
      (fun s g => strReplace s (Nat.repr g.id) g.name) (lastId11Key roles)) := by
    rw [hgrp, applyGroup_fst, List.getElem?_map, List.getElem?_map, hbi]
    simp [hbe2, accumOf_group_assoc, scanRoles_fst]
  refine ⟨hmain, fun h11 => ?_⟩
  rw [hmain, lastId11Key_of_no11 h11, foldl_strReplace_NA]

/-- Witness for C5 amended: in `envW`, account 1's key "100" resolves to
"Science" and account 3, with no id-11 record, keeps "N/A". -/
theorem C5_witness :
    tblW.group[0]? = some "Science" ∧ tblW.group[1]? = some "N/A" :=
  ⟨(@C5_group_association cfgW envW true rowsW logsW logsW2 [⟨100, "Science"⟩] tblW
      0 ⟨1, "a@x.org", []⟩ rolesW1 rfl rfl rfl rfl rfl).1,
   (@C5_group_association cfgW envW true rowsW logsW logsW2 [⟨100, "Science"⟩] tblW
      1 ⟨3, "b@x.org", []⟩ [] rfl rfl rfl rfl rfl).2 (by decide)⟩

/-- C7 amended: with `flag=True`, a role record with id 2 sets the Admin
marker "X" and id 49 the Reviewer marker "X" (else ""); with
`flag=False`, the Admin and Reviewer columns are absent from the result
(not arrays of empty strings). -/
theorem C7_role_flags {cfg : Config} {env : Env} {flag : Bool}
    {rows : List AccountRow} {logs0 logs : List LogEntry} {gs : List Group}
    {tbl : AccountDetails} {i : Nat} {r : AccountRow} {roles : Roles}
    (hl : get_account_list cfg env = .ok (rows, logs0))
    (hg : env.groupsFetch = .ok gs)
    (hd : get_account_details cfg env flag = .ok (tbl, logs))
    (hir : rows[i]? = some r)
    (hrr : env.rolesFetch r.id = .ok roles) :
    (flag = true → ∃ al rl, tbl.admin = some al ∧ tbl.reviewer = some rl ∧
      al[i]? = some (if hasRoleId 2 roles then "X" else "") ∧
      rl[i]? = some (if hasRoleId 49 roles then "X" else "")) ∧
    (flag = false → tbl.admin = none ∧ tbl.reviewer = none) := by
  obtain ⟨gs2, accums, hg2, hm, hrows, hart, hproj, hcoll, hadm, hrev, hgrp, hlogs⟩ :=
    get_account_details_ok_inv hl hd
  obtain ⟨b, hbi, hb⟩ := exMapM_ok_getElem? hm i r hir
  obtain ⟨roles2, hrl2, hbe⟩ := processAccount_ok_inv hb
  have hro : roles2 = roles := (Except.ok.inj (hrr.symm.trans hrl2)).symm
  have hbe2 : b = accumOf env flag r.id roles := by
    rw [hbe, hro]
  constructor
  · intro hf
    subst hf
    refine ⟨accums.map (fun a => a.admin_flag), accums.map (fun a => a.reviewer_flag),
      by rw [hadm]; rfl, by rw [hrev]; rfl, ?_, ?_⟩
    · rw [List.getElem?_map, hbi]
      simp [hbe2, accumOf_admin_flag, scanRoles_admin]
    · rw [List.getElem?_map, hbi]
      simp [hbe2, accumOf_reviewer_flag, scanRoles_reviewer]
  · intro hf
    subst hf
    rw [hadm, hrev]
    exact ⟨rfl, rfl⟩

/-- Witness for C7 amended: in `envW` with `flag=True`, account 1 (role
ids 11 and 2 under key "100") gets Admin "X" and Reviewer "". -/
theorem C7_witness :
    ∃ al rl, tblW.admin = some al ∧ tblW.reviewer = some rl ∧
      al[0]? = some (if hasRoleId 2 rolesW1 then "X" else "") ∧
      rl[0]? = some (if hasRoleId 49 rolesW1 then "X" else "") :=
  (@C7_role_flags cfgW envW true rowsW logsW logsW2 [⟨100, "Science"⟩] tblW
    0 ⟨1, "a@x.org", []⟩ rolesW1 rfl rfl rfl rfl rfl).1 rfl

end Figshare
